import Mathlib

/-!
Verification of the Sims-Flanagan `leg` class
(`src/keplerian_toolbox/sims_flanagan/leg.h`) against its specification.

The C++ code works on `double`; we model it over the real numbers `ℝ`.
Helper types that live in headers not part of the excerpt (`epoch.h`,
`sc_state.h`, `spacecraft.h`, `throttle.h`, `array3D_operations.h`,
`astro_constants.h`, `exceptions.h`) are modelled from the spec, as noted
on each definition.  The Kepler propagator (`propagate_lagrangian`) is an
external collaborator and is kept abstract as a function parameter.

C++ methods that mutate the object in place and may throw are modelled as
functions returning the new object state paired with an `Option LegError`:
`none` means normal return, `some e` means the call threw after having
performed exactly the mutations done before the throw (C++ exception
semantics keep earlier in-place mutations visible to the caller).
-/

noncomputable section

namespace SimsFlanagan

/-- Modelled from the spec: structured error taxonomy of §7
(`InvalidTimeOrder`, `InvalidPhysicalParameter`, `BufferSizeMismatch`);
`AssertionFailure` models a failed debug `assert`, which is not one of the
spec's structured errors. -/
inductive LegError where
  | InvalidTimeOrder
  | InvalidPhysicalParameter
  | BufferSizeMismatch
  | AssertionFailure
deriving DecidableEq

/-- Modelled from the spec: an epoch is a time instant represented as a
real-valued day count (`mjd2000`) from a fixed reference. -/
structure Epoch where
  mjd2000 : ℝ
deriving Inhabited

/-- Modelled from the spec: `ASTRO_DAY2SEC`, seconds = days × 86400. -/
def ASTRO_DAY2SEC : ℝ := 86400

/-- Modelled from the spec: `ASTRO_G0`, standard gravity. -/
def ASTRO_G0 : ℝ := 9.80665

/-- Modelled from the spec: `array3D`, a 3-component real vector. -/
structure Array3D where
  x : ℝ
  y : ℝ
  z : ℝ
deriving Inhabited

namespace Array3D

/-- Modelled from the spec: componentwise addition, `sum(out,a,b)` of
`array3D_operations.h`. -/
def add (a b : Array3D) : Array3D := ⟨a.x + b.x, a.y + b.y, a.z + b.z⟩

/-- Modelled from the spec: componentwise subtraction, `diff(out,a,b)` of
`array3D_operations.h`. -/
def sub (a b : Array3D) : Array3D := ⟨a.x - b.x, a.y - b.y, a.z - b.z⟩

/-- Scalar multiple of a 3-vector (used to express `dv[j] = c * value[j]`). -/
def smul (c : ℝ) (a : Array3D) : Array3D := ⟨c * a.x, c * a.y, c * a.z⟩

/-- Modelled from the spec: Euclidean norm, `norm(a)` of
`array3D_operations.h`. -/
def norm (a : Array3D) : ℝ := Real.sqrt (a.x ^ 2 + a.y ^ 2 + a.z ^ 2)

end Array3D

/-- Modelled from the spec: `sc_state`, position, velocity and mass of the
spacecraft at an instant. -/
structure SCState where
  r : Array3D
  v : Array3D
  m : ℝ
deriving Inhabited

/-- Modelled from the spec: `sc_state::set_state(array7D)` sets position
(3), velocity (3) and mass (1) from a 7-component array, in that fixed
order. -/
def SCState.set_state (_s : SCState) (a : List ℝ) : SCState :=
  { r := ⟨a.getD 0 0, a.getD 1 0, a.getD 2 0⟩
    v := ⟨a.getD 3 0, a.getD 4 0, a.getD 5 0⟩
    m := a.getD 6 0 }

/-- Modelled from the spec: `spacecraft`, with `get_mass`, `get_thrust`,
`get_isp` accessors. -/
structure Spacecraft where
  mass : ℝ
  thrust : ℝ
  isp : ℝ
deriving Inhabited

/-- Modelled from the spec: `throttle`, a validity interval
[`start`, `fin`) and a 3-component commanded vector (`get_value`). -/
structure Throttle where
  start : Epoch
  fin : Epoch
  value : Array3D
deriving Inhabited

/-- Modelled from the spec: `throttle::get_norm`, the Euclidean norm of the
throttle's vector. -/
def Throttle.get_norm (t : Throttle) : ℝ := t.value.norm

/-- The `leg` class of `leg.h`: start/end epoch, start/end state, throttle
sequence, spacecraft and gravitational parameter. -/
structure Leg where
  t_i : Epoch
  x_i : SCState
  throttles : List Throttle
  t_f : Epoch
  x_f : SCState
  sc : Spacecraft
  mu : ℝ
deriving Inhabited

/-- The external Kepler propagator (`propagate_lagrangian`): takes
position, velocity, signed elapsed time in seconds, and the gravitational
parameter; returns the propagated position and velocity.  Kept abstract. -/
def Propagator : Type := Array3D → Array3D → ℝ → ℝ → Array3D × Array3D

namespace Leg

/-- `leg::set_leg` (leg.h, lines 76-96), modelled statement by statement:
first the epoch-order check (throws before any mutation), then the
assignments to `t_i`, `x_i`, `t_f`, `x_f` and `throttles`, then the `mu`
check (throws after those assignments), then the assignment to `mu`.  The
returned `Leg` is the object's state as the caller observes it after the
call, whether it returned normally or threw. -/
def set_leg (l : Leg) (epoch_i : Epoch) (state_i : SCState)
    (throttles_ : List Throttle) (epoch_f : Epoch) (state_f : SCState)
    (mu_ : ℝ) : Leg × Option LegError :=
  if epoch_f.mjd2000 ≤ epoch_i.mjd2000 then
    (l, some LegError.InvalidTimeOrder)
  else
    let l1 := { l with t_i := epoch_i, x_i := state_i,
                       t_f := epoch_f, x_f := state_f,
                       throttles := throttles_ }
    if mu_ ≤ 0 then
      (l1, some LegError.InvalidPhysicalParameter)
    else
      ({ l1 with mu := mu_ }, none)

/-- Forward/backward propagation state of `get_mismatch_con`: the running
position, velocity, mass and current time (seconds). -/
structure PropState where
  r : Array3D
  v : Array3D
  m : ℝ
  t : ℝ

/-- `n_seg_fwd` of `get_mismatch_con` (leg.h line 238): `(n_seg + 1) / 2`. -/
def n_seg_fwd (n : ℕ) : ℕ := (n + 1) / 2

/-- `n_seg_back` of `get_mismatch_con` (leg.h line 238): `n_seg / 2`. -/
def n_seg_back (n : ℕ) : ℕ := n / 2

/-- `thrust_duration` of the loop bodies of `get_mismatch_con` (leg.h
lines 254-255 and 276-277): the throttle segment's duration in seconds. -/
def thrust_duration (th : Throttle) : ℝ :=
  (th.fin.mjd2000 - th.start.mjd2000) * ASTRO_DAY2SEC

/-- `manouver_time` of the loop bodies of `get_mismatch_con` (leg.h lines
256-257 and 278-279): the throttle segment's midpoint time in seconds. -/
def manouver_time (th : Throttle) : ℝ :=
  (th.start.mjd2000 + th.fin.mjd2000) / 2 * ASTRO_DAY2SEC

/-- The forward impulsive velocity increment of `get_mismatch_con` (leg.h
lines 261-262): `dv[j] = max_thrust / mfwd * thrust_duration * value[j]`,
where `mfwd` is the running forward mass `s.m`. -/
def fwd_dv (l : Leg) (s : PropState) (th : Throttle) : Array3D :=
  Array3D.smul (l.sc.thrust / s.m * thrust_duration th) th.value

/-- The backward impulsive velocity increment of `get_mismatch_con` (leg.h
lines 284-285): `dv[j] = - max_thrust / mback * thrust_duration *
value[j]`, where `mback` is the running backward mass `s.m`. -/
def back_dv (l : Leg) (s : PropState) (th : Throttle) : Array3D :=
  Array3D.smul (-l.sc.thrust / s.m * thrust_duration th) th.value

/-- One iteration of the forward-propagation loop of `get_mismatch_con`
(leg.h lines 253-266) applied to throttle `th`: Kepler-propagate to the
segment midpoint, add the impulsive `dv`, deplete the mass by
`exp(-norm_dv/isp/ASTRO_G0)`, and advance the current time. -/
def fwd_step (l : Leg) (prop : Propagator) (s : PropState) (th : Throttle) :
    PropState :=
  let rv := prop s.r s.v (manouver_time th - s.t) l.mu
  let dv := fwd_dv l s th
  { r := rv.1
    v := rv.2.add dv
    m := s.m * Real.exp (-dv.norm / l.sc.isp / ASTRO_G0)
    t := manouver_time th }

/-- One iteration of the backward-propagation loop of `get_mismatch_con`
(leg.h lines 275-289) applied to throttle `th`: Kepler-propagate
(backwards in time) to the segment midpoint, add the negated impulsive
`dv`, inflate the mass by `exp(norm_dv/isp/ASTRO_G0)`, and move the
current time backwards. -/
def back_step (l : Leg) (prop : Propagator) (s : PropState) (th : Throttle) :
    PropState :=
  let rv := prop s.r s.v (manouver_time th - s.t) l.mu
  let dv := back_dv l s th
  { r := rv.1
    v := rv.2.add dv
    m := s.m * Real.exp (dv.norm / l.sc.isp / ASTRO_G0)
    t := manouver_time th }

/-- The forward pass of `get_mismatch_con` (leg.h lines 246-266): starting
from the initial state `x_i` at time `t_i` (in seconds), iterate
`fwd_step` for `i = 0, 1, ..., n_seg_fwd - 1` on `throttles[i]`. -/
def fwd_pass (l : Leg) (prop : Propagator) : PropState :=
  (List.range (n_seg_fwd l.throttles.length)).foldl
    (fun s i => fwd_step l prop s (l.throttles.getD i default))
    { r := l.x_i.r, v := l.x_i.v, m := l.x_i.m
      t := l.t_i.mjd2000 * ASTRO_DAY2SEC }

/-- The backward pass of `get_mismatch_con` (leg.h lines 268-289):
starting from the final state `x_f` at time `t_f` (in seconds), iterate
`back_step` for `i = 0, 1, ..., n_seg_back - 1` on
`throttles[throttles.size() - i - 1]`. -/
def back_pass (l : Leg) (prop : Propagator) : PropState :=
  (List.range (n_seg_back l.throttles.length)).foldl
    (fun s i => back_step l prop s
      (l.throttles.getD (l.throttles.length - i - 1) default))
    { r := l.x_f.r, v := l.x_f.v, m := l.x_f.m
      t := l.t_f.mjd2000 * ASTRO_DAY2SEC }

/-- The 7 values written by `get_mismatch_con` (leg.h lines 291-300):
bridge the forward state to the backward current time by a final Kepler
propagation, then the componentwise position difference, velocity
difference, and the mass difference, in that fixed order. -/
def mismatch7 (l : Leg) (prop : Propagator) : List ℝ :=
  let f := fwd_pass l prop
  let b := back_pass l prop
  let rv := prop f.r f.v (b.t - f.t) l.mu
  let dr := rv.1.sub b.r
  let dvv := rv.2.sub b.v
  [dr.x, dr.y, dr.z, dvv.x, dvv.y, dvv.z, f.m - b.m]

/-- `leg::get_mismatch_con(begin, end)` (leg.h lines 233-301).  The only
length check in the source is `assert(end - begin == 7)`, a debug-only
assertion: `assertions` says whether the build has assertions enabled
(`NDEBUG` not defined).  With assertions on, a range whose length is not 7
aborts before anything is written; otherwise the body runs unconditionally
and writes the 7 mismatch values starting at `begin` (`std::copy` and
`begin[6]` write irrespective of the range's length).  The returned list
is the caller's buffer after the call. -/
def get_mismatch_con_range (l : Leg) (prop : Propagator) (assertions : Bool)
    (buf : List ℝ) : List ℝ × Option LegError :=
  if assertions ∧ buf.length ≠ 7 then
    (buf, some LegError.AssertionFailure)
  else
    (mismatch7 l prop ++ buf.drop 7, none)

/-- `leg::get_mismatch_con(sc_state retval)` (leg.h lines 303-308).  The
parameter is received BY VALUE: the body computes the 7 mismatch values
into a local `array7D tmp` (via the iterator-range overload on a buffer of
length exactly 7, so the assert passes) and calls `set_state` on the local
copy `retval`.  The function returns `void` in C++; we return the local
copy's final value to make the body's computation visible to the proofs. -/
def get_mismatch_con_state (l : Leg) (prop : Propagator) (retval : SCState) :
    SCState :=
  let tmp := (get_mismatch_con_range l prop true (List.replicate 7 0)).1
  retval.set_state tmp

/-- By-value call semantics for a one-argument C++ function: the callee
operates on a copy of the argument; the call yields the callee's result on
the copy together with the caller's argument, which is unchanged. -/
def byValueCall {α β : Type} (f : α → β) (arg : α) : β × α := (f arg, arg)

/-- `leg::evaluate_dv` (leg.h lines 311-319): accumulate, over all
throttles, `thrust_duration_seconds * get_norm * sc.get_thrust() /
sc.get_mass()`, starting from `tmp = 0`. -/
def evaluate_dv (l : Leg) : ℝ :=
  l.throttles.foldl
    (fun tmp th =>
      tmp + (th.fin.mjd2000 - th.start.mjd2000) * ASTRO_DAY2SEC
        * th.get_norm * l.sc.thrust / l.sc.mass)
    0

/-- The value `get_throttles_con` writes for one throttle (leg.h line
340): `std::inner_product(t.begin(), t.end(), t.begin(), -1.)`, i.e. the
left-to-right accumulation `((-1 + x*x) + y*y) + z*z`. -/
def throttle_con_value (th : Throttle) : ℝ :=
  (((-1 : ℝ) + th.value.x * th.value.x) + th.value.y * th.value.y)
    + th.value.z * th.value.z

/-- The `while` loop of `get_throttles_con` (leg.h lines 337-342): for
each remaining output slot, write the constraint value of `throttles[i]`
and step both `i` and the output iterator.  `i` is the current throttle
index, `k` the number of output slots still to fill. -/
def throttles_con_loop (ths : List Throttle) : ℕ → ℕ → List ℝ
  | _, 0 => []
  | i, k + 1 =>
    throttle_con_value (ths.getD i default) :: throttles_con_loop ths (i + 1) k

/-- `leg::get_throttles_con(start, end)` (leg.h lines 332-343): if the
iterator distance differs from the throttle count, throw before writing
anything; otherwise fill every slot of the output range from the
throttles, in sequence order.  The returned list is the caller's buffer
after the call. -/
def get_throttles_con (l : Leg) (buf : List ℝ) : List ℝ × Option LegError :=
  if buf.length ≠ l.throttles.length then
    (buf, some LegError.BufferSizeMismatch)
  else
    (throttles_con_loop l.throttles 0 buf.length, none)

/-- `leg::get_throttle(int index)` (leg.h line 158): `throttles[index]`,
with no bounds check in the source.  In this total embedding the raw
vector access is an `Option`: `none` models the out-of-bounds accesses the
C++ leaves undefined. -/
def get_throttle (l : Leg) (index : ℤ) : Option Throttle :=
  if index < 0 then none else l.throttles.get? index.toNat

/-- `leg::set_throttle(int index, const throttle& t)` (leg.h line 145):
`throttles[index] = t`, with no bounds check in the source.  In this total
embedding the raw vector write is an `Option`: `none` models the
out-of-bounds writes the C++ leaves undefined. -/
def set_throttle (l : Leg) (index : ℤ) (t : Throttle) : Option Leg :=
  if index < 0 then none
  else
    match l.throttles.get? index.toNat with
    | none => none
    | some _ => some { l with throttles := l.throttles.set index.toNat t }

end Leg

/-! Concrete inputs used by witnesses and counterexamples. -/

/-- A concrete epoch at day 0. -/
def epoch0 : Epoch := ⟨0⟩

/-- A concrete epoch at day 1. -/
def epoch1 : Epoch := ⟨1⟩

/-- A concrete spacecraft state of mass 5. -/
def stateA : SCState := ⟨⟨1, 0, 0⟩, ⟨0, 1, 0⟩, 5⟩

/-- A concrete spacecraft state of mass 6. -/
def stateB : SCState := ⟨⟨0, 0, 0⟩, ⟨0, 0, 0⟩, 6⟩

/-- A concrete spacecraft model. -/
def scA : Spacecraft := ⟨1000, 1, 300⟩

/-- A concrete throttle spanning day 0 to day 1 with vector (2, 0, 0),
whose norm 2 exceeds the feasibility limit. -/
def throttle2 : Throttle := ⟨⟨0⟩, ⟨1⟩, ⟨2, 0, 0⟩⟩

/-- A trivial concrete propagator (identity on position and velocity),
standing in for the abstract external collaborator. -/
def propId : Propagator := fun r v _ _ => (r, v)

/-- A concrete fully populated leg with no throttles. -/
def legA : Leg :=
  { t_i := epoch0, x_i := stateA, throttles := [], t_f := epoch1,
    x_f := stateB, sc := scA, mu := 1 }

/-- A concrete leg with the single over-limit throttle `throttle2`. -/
def legB : Leg :=
  { t_i := epoch0, x_i := stateA, throttles := [throttle2], t_f := epoch1,
    x_f := stateB, sc := scA, mu := 1 }

/-! Helper lemmas. -/

/-- Accumulating fold of a real-valued function equals the starting value
plus the sum of the mapped list. -/
theorem foldl_add_eq_sum {α : Type} (f : α → ℝ) :
    ∀ (xs : List α) (a : ℝ),
      xs.foldl (fun acc x => acc + f x) a = a + (xs.map f).sum := by
  intro xs
  induction xs with
  | nil => intro a; simp
  | cons x xs ih =>
    intro a
    simp [List.foldl_cons, ih, add_assoc]

/-- Claim C9: calling `set_leg` with an end epoch at or before the start
epoch fails with `InvalidTimeOrder`, and the leg is returned exactly as it
was — no field is mutated (the check precedes every assignment). -/
theorem set_leg_invalid_time_order (l : Leg) (ei : Epoch) (si : SCState)
    (ths : List Throttle) (ef : Epoch) (sf : SCState) (mu_ : ℝ)
    (h : ef.mjd2000 ≤ ei.mjd2000) :
    l.set_leg ei si ths ef sf mu_ = (l, some LegError.InvalidTimeOrder) := by
  simp [Leg.set_leg, h]

/-- Witness for C9 at a concrete input: configuring `legA` with reversed
epochs fails with `InvalidTimeOrder` and leaves the leg unchanged. -/
theorem set_leg_invalid_time_order_witness :
    epoch0.mjd2000 ≤ epoch1.mjd2000 ∧
      legA.set_leg epoch1 stateB [throttle2] epoch0 stateA 1
        = (legA, some LegError.InvalidTimeOrder) :=
  ⟨by norm_num [epoch0, epoch1],
   set_leg_invalid_time_order legA epoch1 stateB [throttle2] epoch0 stateA 1
     (by norm_num [epoch0, epoch1])⟩

/-- Counterexample to claim C2 as stated: calling `set_leg` on `legA`
with `mu = 0` does fail with `InvalidPhysicalParameter`, but the leg's
initial-state field HAS been observably changed by the failed call (its
mass went from 5 to 6), because the source assigns the epochs, the states
and the throttles before it checks `mu`. -/
theorem set_leg_mu_not_atomic :
    (legA.set_leg epoch0 stateB [] epoch1 stateA 0).2
        = some LegError.InvalidPhysicalParameter ∧
      (legA.set_leg epoch0 stateB [] epoch1 stateA 0).1.x_i.m ≠ legA.x_i.m := by
  constructor
  · norm_num [Leg.set_leg, epoch0, epoch1]
  · norm_num [Leg.set_leg, legA, epoch0, epoch1, stateA, stateB]

/-- Claim C2 (amended): calling `set_leg` with valid epoch order but
`mu ≤ 0` fails with `InvalidPhysicalParameter`; the epochs, boundary
states and throttles have already been replaced by the new values at that
point, and only `mu` keeps its previous value. -/
theorem set_leg_nonpositive_mu (l : Leg) (ei : Epoch) (si : SCState)
    (ths : List Throttle) (ef : Epoch) (sf : SCState) (mu_ : ℝ)
    (h1 : ei.mjd2000 < ef.mjd2000) (h2 : mu_ ≤ 0) :
    l.set_leg ei si ths ef sf mu_ =
      ({ l with t_i := ei, x_i := si, t_f := ef, x_f := sf,
                throttles := ths },
       some LegError.InvalidPhysicalParameter) := by
  simp [Leg.set_leg, not_le.mpr h1, h2]

/-- Witness for the amended C2 at a concrete input. -/
theorem set_leg_nonpositive_mu_witness :
    epoch0.mjd2000 < epoch1.mjd2000 ∧ (0 : ℝ) ≤ 0 ∧
      legA.set_leg epoch0 stateB [throttle2] epoch1 stateA 0 =
        ({ legA with t_i := epoch0, x_i := stateB, t_f := epoch1,
                     x_f := stateA, throttles := [throttle2] },
         some LegError.InvalidPhysicalParameter) :=
  ⟨by norm_num [epoch0, epoch1], le_refl 0,
   set_leg_nonpositive_mu legA epoch0 stateB [throttle2] epoch1 stateA 0
     (by norm_num [epoch0, epoch1]) (le_refl 0)⟩

/-- Claim C10: `get_throttle` and `set_throttle` perform no bounds check
in the source; in this total embedding the underlying vector access
succeeds (returns `some`) exactly when `0 ≤ index < throttle count`. -/
theorem throttle_access_in_bounds (l : Leg) (index : ℤ) (t : Throttle) :
    ((l.get_throttle index).isSome ↔
        0 ≤ index ∧ index < (l.throttles.length : ℤ)) ∧
      ((l.set_throttle index t).isSome ↔
        0 ≤ index ∧ index < (l.throttles.length : ℤ)) := by
  by_cases hneg : index < 0
  · constructor <;>
      simp [Leg.get_throttle, Leg.set_throttle, hneg, not_le.mpr hneg]
  · push_neg at hneg
    have htn : ((l.throttles.get? index.toNat).isSome ↔
        0 ≤ index ∧ index < (l.throttles.length : ℤ)) := by
      rw [Option.isSome_iff_ne_none, ne_eq, List.get?_eq_none]
      constructor
      · intro h
        refine ⟨hneg, ?_⟩
        omega
      · intro ⟨_, h⟩
        omega
    constructor
    · simpa [Leg.get_throttle, not_lt.mpr hneg] using htn
    · rw [← htn]
      simp only [Leg.set_throttle, if_neg (not_lt.mpr hneg)]
      cases l.throttles.get? index.toNat <;> simp

/-- Claim C6: `evaluate_dv` is exactly the sum over all throttles of
segment duration (seconds) × throttle vector norm ×
(max thrust / spacecraft mass), with the same spacecraft mass
`sc.get_mass()` in every term — no per-segment mass depletion. -/
theorem evaluate_dv_eq_sum (l : Leg) :
    Leg.evaluate_dv l =
      (l.throttles.map (fun th =>
        ((th.fin.mjd2000 - th.start.mjd2000) * ASTRO_DAY2SEC)
          * th.get_norm * (l.sc.thrust / l.sc.mass))).sum := by
  unfold Leg.evaluate_dv
  have h := foldl_add_eq_sum
    (fun th : Throttle => (th.fin.mjd2000 - th.start.mjd2000) * ASTRO_DAY2SEC
      * th.get_norm * l.sc.thrust / l.sc.mass) l.throttles 0
  rw [h, zero_add]
  simp only [mul_div_assoc]

/-- A concrete 6-element output buffer (one slot short of the required 7). -/
def buf6 : List ℝ := [0, 0, 0, 0, 0, 0]

/-- A concrete propagation state of mass 5 at time 0. -/
def psA : Leg.PropState := ⟨⟨1, 0, 0⟩, ⟨0, 1, 0⟩, 5, 0⟩

/-- Norm of a scalar multiple of a 3-vector. -/
theorem Array3D.norm_smul (c : ℝ) (a : Array3D) :
    (Array3D.smul c a).norm = |c| * a.norm := by
  unfold Array3D.norm Array3D.smul
  rw [show (c * a.x) ^ 2 + (c * a.y) ^ 2 + (c * a.z) ^ 2
      = c ^ 2 * (a.x ^ 2 + a.y ^ 2 + a.z ^ 2) by ring]
  rw [Real.sqrt_mul (sq_nonneg c), Real.sqrt_sq_eq_abs]

/-- `get_mismatch_con` writes exactly 7 values. -/
theorem mismatch7_length (l : Leg) (prop : Propagator) :
    (Leg.mismatch7 l prop).length = 7 := by
  simp [Leg.mismatch7]

/-- The `get_throttles_con` loop fills exactly as many slots as the output
range has. -/
theorem throttles_con_loop_length (ths : List Throttle) :
    ∀ (k i : ℕ), (Leg.throttles_con_loop ths i k).length = k := by
  intro k
  induction k with
  | zero => intro i; simp [Leg.throttles_con_loop]
  | succ k ih => intro i; simp [Leg.throttles_con_loop, ih]

/-- The `j`-th slot filled by the `get_throttles_con` loop started at
throttle index `i` holds the constraint value of throttle `i + j`. -/
theorem throttles_con_loop_getD (ths : List Throttle) :
    ∀ (k i j : ℕ), j < k →
      (Leg.throttles_con_loop ths i k).getD j 0
        = Leg.throttle_con_value (ths.getD (i + j) default) := by
  intro k
  induction k with
  | zero => intro i j hj; omega
  | succ k ih =>
    intro i j hj
    cases j with
    | zero => simp [Leg.throttles_con_loop]
    | succ j =>
      have hj' : j < k := by omega
      have := ih (i + 1) j hj'
      simpa [Leg.throttles_con_loop, Nat.add_assoc, Nat.add_comm 1 j] using this

/-- A fold of `f` over `List.range k` reading list elements at the loop
index equals the fold of `f` over the first `k` list elements in order. -/
theorem foldl_range_getD {α β : Type} (f : β → α → β) (d : α) :
    ∀ (k : ℕ) (xs : List α), k ≤ xs.length → ∀ (init : β),
      (List.range k).foldl (fun s i => f s (xs.getD i d)) init
        = (xs.take k).foldl f init := by
  intro k
  induction k with
  | zero => intro xs _ init; simp
  | succ k ih =>
    intro xs hk init
    have hk' : k ≤ xs.length := Nat.le_of_succ_le hk
    have hklt : k < xs.length := hk
    rw [List.range_succ, List.foldl_append, ih xs hk' init, List.take_succ,
      List.getElem?_eq_getElem hklt]
    simp only [List.foldl_cons, List.foldl_nil, Option.toList_some,
      List.foldl_append, List.getD_eq_getElem xs d hklt]

/-- A fold of `f` over `List.range k` reading list elements at index
`length - i - 1` equals the fold of `f` over the last `k` list elements
in reverse order. -/
theorem foldl_range_rev_getD {α β : Type} (f : β → α → β) (d : α) :
    ∀ (k : ℕ) (xs : List α), k ≤ xs.length → ∀ (init : β),
      (List.range k).foldl (fun s i => f s (xs.getD (xs.length - i - 1) d)) init
        = ((xs.drop (xs.length - k)).reverse).foldl f init := by
  intro k
  induction k with
  | zero => intro xs _ init; simp
  | succ k ih =>
    intro xs hk init
    have hk' : k ≤ xs.length := Nat.le_of_succ_le hk
    rw [List.range_succ, List.foldl_append, ih xs hk' init]
    have hlt : xs.length - k - 1 < xs.length := by omega
    have hdrop : xs.drop (xs.length - (k + 1))
        = xs.get ⟨xs.length - k - 1, hlt⟩ :: xs.drop (xs.length - k) := by
      have h1 : xs.length - (k + 1) = xs.length - k - 1 := by omega
      have h2 : (xs.length - k - 1) + 1 = xs.length - k := by omega
      rw [h1, List.drop_eq_getElem_cons hlt, h2]
      simp
    rw [hdrop, List.reverse_cons, List.foldl_append]
    simp only [List.foldl_cons, List.foldl_nil]
    rw [List.getD_eq_getElem xs d hlt, List.get_eq_getElem]

/-- Claim C1 (amended): the 7-length contract of `get_mismatch_con` is
enforced only by a debug assertion.  With assertions enabled, a range of
length ≠ 7 fails the assertion (an abort, not a structured
`BufferSizeMismatch` error) before anything is written; with assertions
disabled (`NDEBUG`), no check is performed at all and the 7 mismatch
values are written into the range unconditionally. -/
theorem mismatch_con_length_check_debug_only (l : Leg) (prop : Propagator)
    (buf : List ℝ) (h : buf.length ≠ 7) :
    Leg.get_mismatch_con_range l prop true buf
        = (buf, some LegError.AssertionFailure)
      ∧ Leg.get_mismatch_con_range l prop false buf
        = (Leg.mismatch7 l prop ++ buf.drop 7, none) := by
  constructor <;> simp [Leg.get_mismatch_con_range, h]

/-- Witness for the amended C1 at a concrete input: a 6-element buffer. -/
theorem mismatch_con_length_check_debug_only_witness :
    buf6.length ≠ 7
      ∧ Leg.get_mismatch_con_range legA propId true buf6
        = (buf6, some LegError.AssertionFailure)
      ∧ Leg.get_mismatch_con_range legA propId false buf6
        = (Leg.mismatch7 legA propId ++ buf6.drop 7, none) := by
  have h : buf6.length ≠ 7 := by simp [buf6]
  exact ⟨h, (mismatch_con_length_check_debug_only legA propId buf6 h).1,
    (mismatch_con_length_check_debug_only legA propId buf6 h).2⟩

/-- Counterexample to claim C1 as stated: with assertions disabled (a
legal build configuration), calling `get_mismatch_con` on a 6-element
range does not fail at all — in particular not with `BufferSizeMismatch`
— and it does write into the range; and even with assertions enabled the
failure is the assertion, not a `BufferSizeMismatch` structured error. -/
theorem mismatch_con_length_unchecked_in_release :
    (Leg.get_mismatch_con_range legA propId false buf6).2 = none
      ∧ (Leg.get_mismatch_con_range legA propId false buf6).1 ≠ buf6
      ∧ (Leg.get_mismatch_con_range legA propId true buf6).2
          ≠ some LegError.BufferSizeMismatch := by
  refine ⟨by simp [Leg.get_mismatch_con_range, buf6], ?_, ?_⟩
  · intro heq
    have h7 := congrArg List.length heq
    simp [Leg.get_mismatch_con_range, buf6, mismatch7_length] at h7
  · simp [Leg.get_mismatch_con_range, buf6]

/-- Claim C3: the single-argument overload of `get_mismatch_con` takes
its `sc_state` parameter by value.  The call computes the 7-component
mismatch into the local copy (`set_state` of the mismatch values on the
copy), while the caller's argument after the call is exactly its value
before the call — the computed mismatch is never visible to the caller
through that argument.  The leg itself is untouched (the method is
`const`; in this value-semantics embedding no function returns a modified
leg). -/
theorem mismatch_con_state_by_value (l : Leg) (prop : Propagator)
    (arg : SCState) :
    Leg.byValueCall (Leg.get_mismatch_con_state l prop) arg
      = (arg.set_state (Leg.mismatch7 l prop), arg) := by
  simp [Leg.byValueCall, Leg.get_mismatch_con_state, Leg.get_mismatch_con_range]

/-- Claim C8: `get_throttles_con` called with an output range whose
length differs from the throttle count fails with `BufferSizeMismatch`
and leaves the range untouched; with a matching length it succeeds and
writes exactly `throttle count` values. -/
theorem get_throttles_con_length_contract (l : Leg) (buf : List ℝ) :
    (buf.length ≠ l.throttles.length →
        Leg.get_throttles_con l buf = (buf, some LegError.BufferSizeMismatch))
      ∧ (buf.length = l.throttles.length →
        (Leg.get_throttles_con l buf).2 = none
          ∧ (Leg.get_throttles_con l buf).1.length = l.throttles.length) := by
  constructor
  · intro h
    simp [Leg.get_throttles_con, h]
  · intro h
    simp [Leg.get_throttles_con, h, throttles_con_loop_length]

/-- Witness for C8 at concrete inputs: a 2-element buffer against the
1-throttle leg fails; a 1-element buffer succeeds and holds 1 value. -/
theorem get_throttles_con_length_contract_witness :
    ([(0 : ℝ), 0].length ≠ legB.throttles.length
        ∧ Leg.get_throttles_con legB [0, 0]
          = ([0, 0], some LegError.BufferSizeMismatch))
      ∧ ([(0 : ℝ)].length = legB.throttles.length
        ∧ (Leg.get_throttles_con legB [0]).2 = none
        ∧ (Leg.get_throttles_con legB [0]).1.length = legB.throttles.length) := by
  have h2 : [(0 : ℝ), 0].length ≠ legB.throttles.length := by simp [legB]
  have h1 : [(0 : ℝ)].length = legB.throttles.length := by simp [legB]
  exact ⟨⟨h2, (get_throttles_con_length_contract legB [0, 0]).1 h2⟩,
    ⟨h1, (get_throttles_con_length_contract legB [0]).2 h1⟩⟩

/-- Claim C4: the mismatch evaluation's forward pass processes exactly
the first `ceil(n/2) = (n+1)/2` throttles in increasing index order from
the start state, and its backward pass processes exactly the last
`floor(n/2) = n/2` throttles in reverse order (last throttle first) from
the end state; the forward group has exactly `n % 2` more segments than
the backward group (one more for odd `n`). -/
theorem mismatch_passes_split (l : Leg) (prop : Propagator) :
    Leg.fwd_pass l prop
        = (l.throttles.take (Leg.n_seg_fwd l.throttles.length)).foldl
            (Leg.fwd_step l prop)
            { r := l.x_i.r, v := l.x_i.v, m := l.x_i.m,
              t := l.t_i.mjd2000 * ASTRO_DAY2SEC }
      ∧ Leg.back_pass l prop
        = ((l.throttles.drop (Leg.n_seg_fwd l.throttles.length)).reverse).foldl
            (Leg.back_step l prop)
            { r := l.x_f.r, v := l.x_f.v, m := l.x_f.m,
              t := l.t_f.mjd2000 * ASTRO_DAY2SEC }
      ∧ (l.throttles.take (Leg.n_seg_fwd l.throttles.length)).length
          = Leg.n_seg_fwd l.throttles.length
      ∧ (l.throttles.drop (Leg.n_seg_fwd l.throttles.length)).length
          = Leg.n_seg_back l.throttles.length
      ∧ Leg.n_seg_fwd l.throttles.length
          = Leg.n_seg_back l.throttles.length + l.throttles.length % 2 := by
  have hfle : Leg.n_seg_fwd l.throttles.length ≤ l.throttles.length := by
    unfold Leg.n_seg_fwd; omega
  have hble : Leg.n_seg_back l.throttles.length ≤ l.throttles.length := by
    unfold Leg.n_seg_back; omega
  refine ⟨?_, ?_, ?_, ?_, ?_⟩
  · unfold Leg.fwd_pass
    exact foldl_range_getD (Leg.fwd_step l prop) default
      (Leg.n_seg_fwd l.throttles.length) l.throttles hfle _
  · unfold Leg.back_pass
    have h := foldl_range_rev_getD (Leg.back_step l prop) default
      (Leg.n_seg_back l.throttles.length) l.throttles hble
      { r := l.x_f.r, v := l.x_f.v, m := l.x_f.m,
        t := l.t_f.mjd2000 * ASTRO_DAY2SEC }
    have heq : l.throttles.length - Leg.n_seg_back l.throttles.length
        = Leg.n_seg_fwd l.throttles.length := by
      unfold Leg.n_seg_fwd Leg.n_seg_back; omega
    rw [heq] at h
    exact h
  · rw [List.length_take]; omega
  · rw [List.length_drop]; unfold Leg.n_seg_fwd Leg.n_seg_back; omega
  · unfold Leg.n_seg_fwd Leg.n_seg_back; omega

/-- Claim C5: a forward segment adds to the velocity the increment
`dv = (max_thrust / current_mass) * segment_duration * throttle_vector`
(so its magnitude is `(max_thrust / current_mass) * segment_duration *
|throttle_vector|` and its direction is the throttle vector's) and then
multiplies the mass by `exp(-|dv| / (Isp * g0))`; a backward segment adds
the negated increment, of the same magnitude computed with the backward
running mass, and multiplies the mass by `exp(+|dv| / (Isp * g0))`. -/
theorem segment_velocity_and_mass_update (l : Leg) (prop : Propagator)
    (s : Leg.PropState) (th : Throttle) (hm : 0 < s.m)
    (hT : 0 ≤ l.sc.thrust) (hd : th.start.mjd2000 ≤ th.fin.mjd2000) :
    ((Leg.fwd_step l prop s th).v
        = (prop s.r s.v (Leg.manouver_time th - s.t) l.mu).2.add
            (Leg.fwd_dv l s th)
      ∧ (Leg.fwd_dv l s th).norm
          = l.sc.thrust / s.m * Leg.thrust_duration th * th.value.norm
      ∧ (Leg.fwd_step l prop s th).m
          = s.m * Real.exp (-(Leg.fwd_dv l s th).norm / l.sc.isp / ASTRO_G0))
    ∧ ((Leg.back_step l prop s th).v
        = (prop s.r s.v (Leg.manouver_time th - s.t) l.mu).2.add
            (Leg.back_dv l s th)
      ∧ Leg.back_dv l s th = Array3D.smul (-1) (Leg.fwd_dv l s th)
      ∧ (Leg.back_dv l s th).norm
          = l.sc.thrust / s.m * Leg.thrust_duration th * th.value.norm
      ∧ (Leg.back_step l prop s th).m
          = s.m * Real.exp ((Leg.back_dv l s th).norm / l.sc.isp / ASTRO_G0)) := by
  have hdur : 0 ≤ Leg.thrust_duration th := by
    unfold Leg.thrust_duration ASTRO_DAY2SEC
    have hsub : (0 : ℝ) ≤ th.fin.mjd2000 - th.start.mjd2000 := by linarith
    have : (0 : ℝ) ≤ (86400 : ℝ) := by norm_num
    exact mul_nonneg hsub this
  have hc : 0 ≤ l.sc.thrust / s.m * Leg.thrust_duration th :=
    mul_nonneg (div_nonneg hT hm.le) hdur
  have hfwd_norm : (Leg.fwd_dv l s th).norm
      = l.sc.thrust / s.m * Leg.thrust_duration th * th.value.norm := by
    unfold Leg.fwd_dv
    rw [Array3D.norm_smul, abs_of_nonneg hc]
  have hback_eq : Leg.back_dv l s th = Array3D.smul (-1) (Leg.fwd_dv l s th) := by
    unfold Leg.back_dv Leg.fwd_dv Array3D.smul
    simp only [Array3D.mk.injEq]
    refine ⟨by ring, by ring, by ring⟩
  have hback_norm : (Leg.back_dv l s th).norm
      = l.sc.thrust / s.m * Leg.thrust_duration th * th.value.norm := by
    unfold Leg.back_dv
    rw [Array3D.norm_smul]
    rw [show -l.sc.thrust / s.m * Leg.thrust_duration th
        = -(l.sc.thrust / s.m * Leg.thrust_duration th) by ring]
    rw [abs_neg, abs_of_nonneg hc]
  exact ⟨⟨rfl, hfwd_norm, rfl⟩, ⟨rfl, hback_eq, hback_norm, rfl⟩⟩

/-- Witness for C5 at a concrete input: leg `legB`, a propagation state
of mass 5, and the throttle `throttle2`. -/
theorem segment_velocity_and_mass_update_witness :
    (0 : ℝ) < psA.m ∧ (0 : ℝ) ≤ legB.sc.thrust
      ∧ throttle2.start.mjd2000 ≤ throttle2.fin.mjd2000
      ∧ (Leg.fwd_dv legB psA throttle2).norm
          = legB.sc.thrust / psA.m * Leg.thrust_duration throttle2
            * throttle2.value.norm := by
  have h1 : (0 : ℝ) < psA.m := by norm_num [psA]
  have h2 : (0 : ℝ) ≤ legB.sc.thrust := by norm_num [legB, scA]
  have h3 : throttle2.start.mjd2000 ≤ throttle2.fin.mjd2000 := by
    norm_num [throttle2]
  exact ⟨h1, h2, h3,
    (segment_velocity_and_mass_update legB propId psA throttle2 h1 h2 h3).1.2.1⟩

/-- Claim C7: with a correctly sized buffer, `get_throttles_con` writes
for throttle `i` the value `x_i² + y_i² + z_i² − 1`; a throttle of vector
norm exactly 1 yields 0, norm > 1 a strictly positive value, and norm < 1
a strictly negative value. -/
theorem get_throttles_con_value_sign (l : Leg) (buf : List ℝ)
    (h : buf.length = l.throttles.length) (i : ℕ)
    (hi : i < l.throttles.length) :
    ((Leg.get_throttles_con l buf).1.getD i 0
        = (l.throttles.getD i default).value.x ^ 2
          + (l.throttles.getD i default).value.y ^ 2
          + (l.throttles.getD i default).value.z ^ 2 - 1)
      ∧ ((l.throttles.getD i default).get_norm = 1 →
          (Leg.get_throttles_con l buf).1.getD i 0 = 0)
      ∧ (1 < (l.throttles.getD i default).get_norm →
          0 < (Leg.get_throttles_con l buf).1.getD i 0)
      ∧ ((l.throttles.getD i default).get_norm < 1 →
          (Leg.get_throttles_con l buf).1.getD i 0 < 0) := by
  set t := l.throttles.getD i default with ht
  have hv : (Leg.get_throttles_con l buf).1.getD i 0
      = t.value.x ^ 2 + t.value.y ^ 2 + t.value.z ^ 2 - 1 := by
    have hloop := throttles_con_loop_getD l.throttles buf.length 0 i (by omega)
    simp only [Nat.zero_add] at hloop
    rw [show (Leg.get_throttles_con l buf).1
        = Leg.throttles_con_loop l.throttles 0 buf.length by
      simp [Leg.get_throttles_con, h]]
    rw [hloop, ← ht]
    unfold Leg.throttle_con_value
    ring
  have hS : 0 ≤ t.value.x ^ 2 + t.value.y ^ 2 + t.value.z ^ 2 := by positivity
  have hnorm : t.get_norm
      = Real.sqrt (t.value.x ^ 2 + t.value.y ^ 2 + t.value.z ^ 2) := rfl
  refine ⟨hv, ?_, ?_, ?_⟩
  · intro h1
    rw [hnorm, Real.sqrt_eq_one] at h1
    rw [hv, h1]; ring
  · intro h1
    rw [hnorm] at h1
    have h2 : (1 : ℝ) ^ 2 < t.value.x ^ 2 + t.value.y ^ 2 + t.value.z ^ 2 :=
      (Real.lt_sqrt (by norm_num)).mp h1
    norm_num at h2
    rw [hv]; linarith
  · intro h1
    rw [hnorm] at h1
    have h2 := (Real.sqrt_lt' (by norm_num : (0 : ℝ) < 1)).mp h1
    norm_num at h2
    rw [hv]; linarith

/-- Witness for C7 at a concrete input: the 1-throttle leg `legB`, whose
throttle vector (2, 0, 0) has norm 2 > 1, yields the strictly positive
constraint value 2² + 0² + 0² − 1. -/
theorem get_throttles_con_value_sign_witness :
    [(0 : ℝ)].length = legB.throttles.length ∧ 0 < legB.throttles.length
      ∧ (Leg.get_throttles_con legB [0]).1.getD 0 0
          = (legB.throttles.getD 0 default).value.x ^ 2
            + (legB.throttles.getD 0 default).value.y ^ 2
            + (legB.throttles.getD 0 default).value.z ^ 2 - 1
      ∧ 0 < (Leg.get_throttles_con legB [0]).1.getD 0 0 := by
  have h : [(0 : ℝ)].length = legB.throttles.length := by simp [legB]
  have hi : 0 < legB.throttles.length := by simp [legB]
  have hgt : 1 < (legB.throttles.getD 0 default).get_norm := by
    have hth : legB.throttles.getD 0 default = throttle2 := by simp [legB]
    rw [hth]
    show (1 : ℝ) < Real.sqrt ((2 : ℝ) ^ 2 + 0 ^ 2 + 0 ^ 2)
    rw [show ((2 : ℝ) ^ 2 + 0 ^ 2 + 0 ^ 2) = 2 ^ 2 by norm_num,
      Real.sqrt_sq (by norm_num : (0 : ℝ) ≤ 2)]
    norm_num
  exact ⟨h, hi, (get_throttles_con_value_sign legB [0] h 0 hi).1,
    (get_throttles_con_value_sign legB [0] h 0 hi).2.2.1 hgt⟩

end SimsFlanagan
